import Mathlib

/-!
Verification of the HNSWIndex.Net Python binding layer
(src/bindings/bindings.py and its tests) together with a model of the
native HNSW engine. The engine (graph index, search, deletion manager,
serializer) ships as a prebuilt native library and its source is not in
the repository; every definition below that concerns it is modelled from
the specification and marked `Modelled from the spec:` in its doc
comment. Definitions that embed visible Python code cite the file and
lines they come from. Vector components and distances are represented
with exact rationals in place of IEEE floats.
-/

namespace HNSW

/-- Error kinds. The first seven are the engine's error kinds from the
spec's error-handling design; the last four model Python exception
classes raised by the binding layer in src/bindings/bindings.py. -/
inductive Err where
  | invalidDimension
  | invalidConfiguration
  | undefinedDistance
  | removalDisabled
  | serializationCorrupt
  | capacityExhausted
  | invalidHandle
  | valueError
  | typeError
  | notImplementedError
  | runtimeError
  | attributeError
  deriving Repr, DecidableEq

/-- Modelled from the spec: the three distance-metric variants fixed per
index instance at creation (squared Euclidean, cosine, unit cosine). -/
inductive Metric where
  | sqEuclid
  | cosine
  | ucosine
  deriving Repr, DecidableEq

/-- Dot product of two rational vectors (componentwise, stopping at the
shorter vector, as the operands always share the index dimension). -/
def dot : List ℚ → List ℚ → ℚ
  | x :: xs, y :: ys => x * y + dot xs ys
  | _, _ => 0

/-- Squared Euclidean norm of a vector: `dot v v`. It is zero exactly
when the Euclidean norm is zero, which is the test the cosine metric's
undefined-distance check needs. -/
def normSq (v : List ℚ) : ℚ := dot v v

/-- Clamp a rational into an interval, as np.clip does. -/
def clipQ (x lo hi : ℚ) : ℚ := max lo (min x hi)

/-- Squared Euclidean distance, from the spec's metric list (and mirrored
by squared_euclidean in src/bindings/__tests__/metric_test.py). -/
def sqEuclidDist : List ℚ → List ℚ → ℚ
  | x :: xs, y :: ys => (x - y) ^ 2 + sqEuclidDist xs ys
  | _, _ => 0

/-- Unit-cosine distance `1 - clip(x·y, -1, 1)`, from the spec's metric
list and cosine_distance_unit in src/bindings/__tests__/metric_test.py
(lines 26-31). Neither the spec nor that reference implementation checks
the operands' norms: the metric is total. -/
def ucosineDist (x y : List ℚ) : ℚ := 1 - clipQ (dot x y) (-1) 1

/-- Modelled from the spec: whether the metric is defined on a vector.
Only the cosine metric rejects zero-norm operands; squared Euclidean is
total, and unit-cosine "does not re-normalize or check norm". -/
def metricDefined (m : Metric) (v : List ℚ) : Bool :=
  match m with
  | .cosine => decide (normSq v ≠ 0)
  | _ => true

/-- Modelled from the spec: the configuration set of a graph index
(capacity hint, M, ef, mL, seed, min-neighbors floor, base-layer
multiplier deriving Mmax0 from M, and the allow-removals switch). -/
structure Params where
  collectionSize : Nat
  maxEdges : Nat
  maxCandidates : Nat
  distRate : ℚ
  seed : Int
  minNN : Nat
  zeroLayerBase : Nat
  allowRemovals : Bool
  deriving Repr, DecidableEq

/-- Modelled from the spec: a graph node — stable integer id, assigned
level, tombstone flag, its vector, and one neighbor-id list per layer
0..level. -/
structure Node where
  id : Int
  level : Nat
  tombstone : Bool
  vec : List ℚ
  nbrs : List (List Int)
  deriving Repr, DecidableEq

/-- Modelled from the spec: the whole index state — dimension, metric
selection, configuration, the node arena, entry-point id, current
maximum level, the next id of the monotonic id counter, and the
LevelGenerator's invocation count (its state is a deterministic function
of the seed and the number of prior invocations). -/
structure HnswState where
  dim : Nat
  metric : Metric
  params : Params
  nodes : List Node
  entry : Option Int
  maxLevel : Nat
  nextId : Int
  lgCalls : Nat
  deriving Repr, DecidableEq

/-- A numeric distance function. The engine model is parametric in it
because the cosine value involves a real square root that has no exact
rational form; definedness of the metric is checked separately and
exactly through metricDefined. -/
def DistFn : Type := List ℚ → List ℚ → ℚ

/-- A level-sampling function: the level drawn for a given seed at a
given LevelGenerator invocation count. Modelled from the spec: the draw
floor(-ln(uniform) * mL) is a deterministic function of (seed, number of
prior invocations), which is all the model relies on. -/
def LevelFn : Type := Int → Nat → Nat

/-- Ranking order on (id, distance) pairs: ascending distance, with
equal-distance ties broken by ascending id. -/
def rankLE (a b : Int × ℚ) : Prop :=
  a.2 < b.2 ∨ (a.2 = b.2 ∧ a.1 ≤ b.1)

instance : DecidableRel rankLE := fun _ _ =>
  inferInstanceAs (Decidable (_ ∨ _))

instance : IsTotal (Int × ℚ) rankLE := by
  constructor
  intro a b
  rcases lt_trichotomy a.2 b.2 with h | h | h
  · exact Or.inl (Or.inl h)
  · rcases Int.le_total a.1 b.1 with h' | h'
    · exact Or.inl (Or.inr ⟨h, h'⟩)
    · exact Or.inr (Or.inr ⟨h.symm, h'⟩)
  · exact Or.inr (Or.inl h)

instance : IsTrans (Int × ℚ) rankLE := by
  constructor
  intro a b c hab hbc
  rcases hab with h1 | ⟨h1, h1'⟩
  · rcases hbc with h2 | ⟨h2, _⟩
    · exact Or.inl (h1.trans h2)
    · exact Or.inl (h2 ▸ h1)
  · rcases hbc with h2 | ⟨h2, h2'⟩
    · exact Or.inl (h1 ▸ h2)
    · exact Or.inr ⟨h1.trans h2, h1'.trans h2'⟩

/-- Find a node by id in the arena. -/
def findNode (s : HnswState) (i : Int) : Option Node :=
  s.nodes.find? (fun nd => nd.id == i)

/-- The vector stored for an id (empty when the id is unknown). -/
def vecOf (s : HnswState) (i : Int) : List ℚ :=
  (findNode s i).elim [] Node.vec

/-- Whether an id is tombstoned (false when the id is unknown). -/
def isTomb (s : HnswState) (i : Int) : Bool :=
  (findNode s i).elim false Node.tombstone

/-- The neighbor list of an id at a layer (empty when unknown). -/
def nodeNbrs (s : HnswState) (i : Int) (layer : Nat) : List Int :=
  (findNode s i).elim [] (fun nd => nd.nbrs.getD layer [])

/-- The ranking key of a stored id relative to a query. -/
def keyOf (d : DistFn) (s : HnswState) (q : List ℚ) (i : Int) : Int × ℚ :=
  (i, d q (vecOf s i))

/-- Sort ids by ascending distance to a center, ties by ascending id. -/
def sortByDist (d : DistFn) (s : HnswState) (c : List ℚ) (l : List Int) : List Int :=
  ((l.map (keyOf d s c)).insertionSort rankLE).map Prod.fst

/-- The closest id to the query among a candidate list (ties by id). -/
def pickClosest (d : DistFn) (s : HnswState) (q : List ℚ) : List Int → Option Int
  | [] => none
  | i :: rest =>
    match pickClosest d s q rest with
    | none => some i
    | some j => if rankLE (keyOf d s q i) (keyOf d s q j) then some i else some j

/-- Modelled from the spec: one greedy step sequence at a layer with
breadth 1 — repeatedly move to the strictly closer best neighbor, fueled
to terminate. -/
def greedyStep (d : DistFn) (s : HnswState) (q : List ℚ) (layer : Nat) :
    Nat → Int → Int
  | 0, c => c
  | fuel + 1, c =>
    match pickClosest d s q (nodeNbrs s c layer) with
    | none => c
    | some n =>
      if d q (vecOf s n) < d q (vecOf s c) then
        greedyStep d s q layer fuel n
      else c

/-- Modelled from the spec: greedy descent from the entry point through
layers max_level .. 1 with breadth 1. -/
def descend (d : DistFn) (s : HnswState) (q : List ℚ) (ep : Int) : Int :=
  ((List.range' 1 s.maxLevel).reverse).foldl
    (fun c layer => greedyStep d s q layer (s.nodes.length + 1) c) ep

/-- Modelled from the spec: the bounded beam-search loop at one layer —
expand the closest unvisited candidate's neighbors, keep the ef best,
stop when the keep-set is full and the closest open candidate does not
improve on its worst member. Tombstoned nodes are traversed like any
other (filtering happens only on the final result set). -/
def searchLoop (d : DistFn) (s : HnswState) (q : List ℚ) (ef : Nat) (layer : Nat) :
    Nat → List Int → List Int → List Int → List Int
  | 0, _, _, res => res
  | fuel + 1, visited, open_, res =>
    match pickClosest d s q open_ with
    | none => res
    | some c =>
      let open' := open_.erase c
      let resSorted := sortByDist d s q res
      let improves :=
        match resSorted.getLast? with
        | none => true
        | some w => decide (d q (vecOf s c) < d q (vecOf s w))
      if ef ≤ res.length ∧ improves = false then res
      else
        let nbs := (nodeNbrs s c layer).filter (fun j => !(visited.contains j))
        let res' := (sortByDist d s q ((res ++ [c]).dedup)).take ef
        searchLoop d s q ef layer fuel (visited ++ c :: nbs) (open' ++ nbs) res'

/-- Modelled from the spec: beam search with breadth ef at a layer,
starting at an entry id. -/
def searchLayer (d : DistFn) (s : HnswState) (q : List ℚ) (ef : Nat)
    (layer : Nat) (ep : Int) : List Int :=
  searchLoop d s q ef layer (s.nodes.length + 1) [ep] [ep] []

/-- Modelled from the spec: the k-nearest-neighbor query. Dimension
mismatch and a metric-undefined query fail; on an empty index the result
is empty; otherwise greedy descent locates a base-layer entry, a beam of
breadth max(ef_search, k, min_nn) searches layer 0, tombstoned nodes are
filtered from the result set, and the k closest are returned by
ascending distance with ties broken by ascending id. -/
def knnQuery (d : DistFn) (s : HnswState) (q : List ℚ) (k : Nat) :
    Except Err (List (Int × ℚ)) :=
  if q.length ≠ s.dim then .error .invalidDimension
  else if metricDefined s.metric q = false then .error .undefinedDistance
  else
    match s.entry with
    | none => .ok []
    | some ep =>
      let ep0 := descend d s q ep
      let ef := max s.params.maxCandidates (max k s.params.minNN)
      let cands := (searchLayer d s q ef 0 ep0).dedup
      let live := cands.filter (fun i => !(isTomb s i))
      let pairs := live.map (keyOf d s q)
      .ok ((pairs.insertionSort rankLE).take k)

/-- Modelled from the spec: the per-layer degree cap — Mmax0 at the base
layer, derived from M through the zero-layer base multiplier, and M at
every other layer. -/
def layerCap (p : Params) (layer : Nat) : Nat :=
  if layer = 0 then p.maxEdges * p.zeroLayerBase else p.maxEdges

/-- Apply a function to the node with a given id, leaving others as is. -/
def updNode (s : HnswState) (i : Int) (f : Node → Node) : HnswState :=
  { s with nodes := s.nodes.map (fun nd => if nd.id == i then f nd else nd) }

/-- Replace a node's neighbor list at one layer. -/
def setNbrs (layer : Nat) (l : List Int) (nd : Node) : Node :=
  { nd with nbrs := nd.nbrs.set layer l }

/-- Modelled from the spec: re-prune an over-full neighbor list down to
the cap, keeping the closest, deduplicated ids. -/
def pruneTo (d : DistFn) (s : HnswState) (center : List ℚ) (cap : Nat)
    (l : List Int) : List Int :=
  (sortByDist d s center l.dedup).take cap

/-- Modelled from the spec: the diversity selection heuristic — walk the
candidates in ascending distance order, discard one that is closer to an
already-selected neighbor than to the new vector, accept otherwise,
until the cap is reached or the candidates are exhausted. -/
def selectNeighbors (d : DistFn) (s : HnswState) (v : List ℚ) (cap : Nat) :
    List Int → List Int → List Int
  | [], sel => sel
  | c :: rest, sel =>
    if cap ≤ sel.length then sel
    else if sel.any (fun t => decide (d (vecOf s c) (vecOf s t) < d (vecOf s c) v)) then
      selectNeighbors d s v cap rest sel
    else
      selectNeighbors d s v cap rest (sel ++ [c])

/-- Modelled from the spec: add the new node to one chosen neighbor's
list at a layer (bidirectional linking, one direction), re-pruning that
neighbor's edge set when its degree now exceeds the layer cap. -/
def linkOne (d : DistFn) (newId : Int) (layer : Nat) (s : HnswState)
    (t : Int) : HnswState :=
  let cap := layerCap s.params layer
  let merged := (nodeNbrs s t layer ++ [newId]).dedup
  let capped := if cap < merged.length then pruneTo d s (vecOf s t) cap merged else merged
  updNode s t (setNbrs layer capped)

/-- Modelled from the spec: install the selected neighbors as the new
node's list at a layer and link back from each selected neighbor. -/
def linkAll (d : DistFn) (newId : Int) (layer : Nat) (sel : List Int)
    (s : HnswState) : HnswState :=
  sel.foldl (linkOne d newId layer) (updNode s newId (setNbrs layer sel))

/-- Modelled from the spec: insertion's per-layer phase — for each layer
from min(L, max level) down to 0, beam-search candidates with breadth
ef_construction from the current best entry, select up to the cap with
the diversity heuristic, link bidirectionally with re-pruning, and carry
the best candidate down as the next layer's entry. -/
def insertLayers (d : DistFn) (v : List ℚ) (newId : Int) :
    List Nat → Int → HnswState → HnswState
  | [], _, s => s
  | layer :: rest, cur, s =>
    let cands := (searchLayer d s v s.params.maxCandidates layer cur).dedup
    let sorted := sortByDist d s v cands
    let sel := selectNeighbors d s v (layerCap s.params layer) sorted []
    insertLayers d v newId rest (sorted.headD cur) (linkAll d newId layer sel s)

/-- Modelled from the spec: single-vector insertion. A dimension
mismatch or a metric-undefined vector fails; otherwise a fresh id is
allocated from the monotonic counter, a level is drawn from the
LevelGenerator (advancing its invocation count by exactly one), an empty
index makes the node the entry point, and otherwise a greedy descent
through the upper layers finds the insertion region, each layer from
min(L, max level) down to 0 is linked, and the node becomes the new
entry point when its level exceeds the current maximum. -/
def insertOne (lvl : LevelFn) (d : DistFn) (s : HnswState) (v : List ℚ) :
    Except Err (HnswState × Int) :=
  if v.length ≠ s.dim then .error .invalidDimension
  else if metricDefined s.metric v = false then .error .undefinedDistance
  else
    let L := lvl s.params.seed s.lgCalls
    let newId := s.nextId
    let nd : Node := ⟨newId, L, false, v, List.replicate (L + 1) []⟩
    match s.entry with
    | none =>
      let s' : HnswState :=
        { s with
          nodes := s.nodes ++ [nd]
          entry := some newId
          maxLevel := L
          nextId := newId + 1
          lgCalls := s.lgCalls + 1 }
      .ok (s', newId)
    | some ep =>
      let s0 : HnswState :=
        { s with
          nodes := s.nodes ++ [nd]
          nextId := newId + 1
          lgCalls := s.lgCalls + 1 }
      let upper := (List.range' (L + 1) (s.maxLevel - L)).reverse
      let cur := upper.foldl
        (fun c layer => greedyStep d s0 v layer (s0.nodes.length + 1) c) ep
      let lows := (List.range (min L s.maxLevel + 1)).reverse
      let s1 := insertLayers d v newId lows cur s0
      let s2 := if s.maxLevel < L then { s1 with entry := some newId, maxLevel := L }
                else s1
      .ok (s2, newId)

/-- Modelled from the spec: the engine's batch add processes the vectors
in order, each through the single-vector insertion (batching is a
caller-facing convenience, not a separate code path), collecting the
assigned ids; the first failing vector aborts the batch. -/
def addBatch (lvl : LevelFn) (d : DistFn) (s : HnswState) :
    List (List ℚ) → Except Err (HnswState × List Int)
  | [] => .ok (s, [])
  | v :: vs =>
    match insertOne lvl d s v with
    | .error e => .error e
    | .ok (s', i) =>
      match addBatch lvl d s' vs with
      | .error e => .error e
      | .ok (s'', ids) => .ok (s'', i :: ids)

/-- Modelled from the spec: tombstone one id — set the flag when the id
exists; an unknown id is skipped and an already-tombstoned id keeps its
flag, so both are silently absorbed. -/
def removeOne (s : HnswState) (i : Int) : HnswState :=
  { s with
    nodes := s.nodes.map
      (fun nd => if nd.id == i then { nd with tombstone := true } else nd) }

/-- Modelled from the spec: the DeletionManager's batch removal. With
removals disabled the call is rejected with the RemovalDisabled error
kind (the spec leaves error-vs-no-op open; the error choice is taken
here and documented); with removals enabled each id is tombstoned, and
no error is ever reported for unknown or already-tombstoned ids. The
second component models the engine's last-error slot that the binding
layer polls after the call. -/
def engineRemove (s : HnswState) (ids : List Int) : HnswState × Option Err :=
  if s.params.allowRemovals = false then (s, some .removalDisabled)
  else (ids.foldl removeOne s, none)

/-- A Python value passed to the binding layer where an array is
expected: a scalar, a flat list of numbers, or a nested list of rows. -/
inductive PyData where
  | scalar (x : ℚ)
  | list1 (xs : List ℚ)
  | list2 (xss : List (List ℚ))
  deriving Repr, DecidableEq

/-- A numpy ndarray as the binding layer sees it: only its dimensionality
and contents matter to the embedded checks. -/
inductive PyArr where
  | arr0 (x : ℚ)
  | arr1 (xs : List ℚ)
  | arr2 (xss : List (List ℚ))
  deriving Repr, DecidableEq

/-- Whether a nested list forms a rectangular (homogeneous) 2D array;
np.asarray raises ValueError on a ragged nested list. -/
def rectangular (xss : List (List ℚ)) : Bool :=
  xss.all (fun r => r.length == (xss.headD []).length)

/-- Embeds np.asarray as used by the helper functions of
src/bindings/bindings.py (lines 88-101): a scalar, flat list or
rectangular nested list converts to an ndarray of the matching
dimensionality; an inhomogeneous nested list raises ValueError. -/
def asF32 : PyData → Except Err PyArr
  | .scalar x => .ok (.arr0 x)
  | .list1 xs => .ok (.arr1 xs)
  | .list2 xss => if rectangular xss then .ok (.arr2 xss) else .error .valueError

/-- The ndim attribute of an ndarray. -/
def ndim : PyArr → Nat
  | .arr0 _ => 0
  | .arr1 _ => 1
  | .arr2 _ => 2

/-- The size attribute (total element count) of an ndarray. -/
def psize : PyArr → Nat
  | .arr0 _ => 1
  | .arr1 xs => xs.length
  | .arr2 xss => (xss.map List.length).sum

/-- Embeds _as_2d_f32 from src/bindings/bindings.py lines 93-101: convert
the input to an ndarray, reshape a 1D vector into one row, reject inputs
that are not 2D with ValueError, and, when an expected dimension is
given, reject a row width different from it with ValueError (the width
check is stated per row; for a rectangular array it is the shape[1]
check of the source). -/
def as2dF32 (x : PyData) (dimExpected : Option Nat) :
    Except Err (List (List ℚ)) :=
  match asF32 x with
  | .error e => .error e
  | .ok a =>
    match a with
    | .arr0 _ => .error .valueError
    | .arr1 xs =>
      match dimExpected with
      | none => .ok [xs]
      | some dim => if xs.length == dim then .ok [xs] else .error .valueError
    | .arr2 xss =>
      match dimExpected with
      | none => .ok xss
      | some dim =>
        if xss.all (fun r => r.length == dim) then .ok xss else .error .valueError

/-- Embeds Index.add from src/bindings/bindings.py lines 152-166: run the
input through _as_2d_f32 against the index dimension (a ValueError there
propagates before the engine is touched), then hand the rows to the
engine's batch add; a negative return code raises RuntimeError, which
the model folds into the engine error. -/
def pyAdd (lvl : LevelFn) (d : DistFn) (s : HnswState) (x : PyData) :
    Except Err (HnswState × List Int) :=
  match as2dF32 x (some s.dim) with
  | .error e => .error e
  | .ok rows => addBatch lvl d s rows

/-- Embeds Index.remove from src/bindings/bindings.py lines 169-180: an
empty id array returns immediately, before the native removal routine is
invoked; otherwise the engine (passed here as an explicit argument, so
that non-invocation is expressible) runs and the binding raises
RuntimeError when the engine's last-error slot is nonempty. -/
def pyRemove (engine : HnswState → List Int → HnswState × Option Err)
    (s : HnswState) (ids : List Int) : Except Err HnswState :=
  if ids.length = 0 then .ok s
  else
    match engine s ids with
    | (_, some e) => .error e
    | (s', none) => .ok s'

/-- Embeds Index.knn from src/bindings/bindings.py lines 182-198: the
query is converted with _as_f32, inputs that are not a 1D vector of
exactly the index dimension raise ValueError before the engine query
(again an explicit argument) is invoked, and a negative engine return
raises RuntimeError, folded into the engine error. -/
def pyKnn (engine : List ℚ → Nat → Except Err (List (Int × ℚ)))
    (dim : Nat) (x : PyData) (k : Nat) : Except Err (List (Int × ℚ)) :=
  match asF32 x with
  | .error e => .error e
  | .ok q =>
    match q with
    | .arr1 xs => if xs.length == dim then engine xs k else .error .valueError
    | _ => .error .valueError

/-- The configurable options recognized by the binding layer's Index
class and by the repository's parameter tests. -/
inductive ConfigOp where
  | collectionSize
  | maxEdges
  | maxCandidates
  | distributionRate
  | randomSeed
  | minNN
  | zeroLayerBase
  | allowRemovals
  deriving Repr, DecidableEq

/-- Embeds the configure methods of class Index in
src/bindings/bindings.py lines 130-149: set_collection_size,
set_max_edges, set_max_candidates, set_distribution_rate,
set_random_seed, set_min_nn and set_zero_layer_base each consist solely
of raise NotImplementedError(); no set_allow_removals method is defined
on the class at all, so calling it (as the repository's own test
test_disabled_removals does) raises AttributeError under Python
attribute lookup. The argument value is carried but can never be used. -/
def configure (s : HnswState) (op : ConfigOp) (v : ℚ) : Except Err HnswState :=
  match op, s, v with
  | .allowRemovals, _, _ => .error .attributeError
  | _, _, _ => .error .notImplementedError

/-- Modelled from the spec: the index state a fresh handle starts from.
The native library's default parameter values are not visible in the
repository; the values below are arbitrary placeholders (no claim
depends on them), and the metric defaults to squared Euclidean since
the hnsw_create ABI carries no metric tag. -/
def defaultParams : Params :=
  { collectionSize := 1024
    maxEdges := 16
    maxCandidates := 200
    distRate := 1
    seed := 0
    minNN := 0
    zeroLayerBase := 2
    allowRemovals := true }

/-- The empty index state of a given dimension and metric. -/
def mkInitState (dim : Nat) (m : Metric) : HnswState :=
  { dim := dim
    metric := m
    params := defaultParams
    nodes := []
    entry := none
    maxLevel := 0
    nextId := 0
    lgCalls := 0 }

/-- Embeds Index.__init__ from src/bindings/bindings.py lines 117-122
over the native hnsw_create, which per the declared ABI (line 42) takes
a single int argument. Modelled from the spec: creation fails when the
dimension is not positive; the binding raises RuntimeError on a null
handle. The constructor has no metric parameter. -/
def indexInit (dim : Int) : Except Err HnswState :=
  if dim ≤ 0 then .error .runtimeError
  else .ok (mkInitState dim.toNat .sqEuclid)

/-- Python call semantics for the constructor as invoked by the
repository's metric tests, Index(dim, metric=...): Index.__init__ in
src/bindings/bindings.py declares no metric parameter, so passing the
keyword raises TypeError before any native code runs. -/
def indexInitKw (dim : Int) (metric : Option String) : Except Err HnswState :=
  match metric with
  | some _ => .error .typeError
  | none => indexInit dim

/-- One batch call through the binding layer: index.add(vectors) on a
list of rows. The final index state, the ids the caller received, and
the exception raised, if any. When the exception comes from the binding
layer's validation the index is untouched, which is the case the
comparison theorems exercise; the partial state an engine-side failure
leaves behind is not pinned down by the spec and is not modelled. -/
def pyBatchRun (lvl : LevelFn) (d : DistFn) (s : HnswState)
    (vs : List (List ℚ)) : HnswState × List Int × Option Err :=
  match pyAdd lvl d s (.list2 vs) with
  | .error e => (s, [], some e)
  | .ok (s', ids) => (s', ids, none)

/-- N sequential single-vector calls through the binding layer:
index.add([v]) for each row in order, as the repository's
test_random_seed does. Each call wraps its row as a one-row batch; ids
collected so far survive an exception on a later call, and the state
reached before the failing call is kept, since each earlier call had
already committed. -/
def pySeqRun (lvl : LevelFn) (d : DistFn) (s : HnswState) :
    List (List ℚ) → HnswState × List Int × Option Err
  | [] => (s, [], none)
  | v :: vs =>
    match pyAdd lvl d s (.list2 [v]) with
    | .error e => (s, [], some e)
    | .ok (s', ids) =>
      match pySeqRun lvl d s' vs with
      | (s'', rest, e?) => (s'', ids ++ rest, e?)

/-- Encode a natural number as one rational token. -/
def encNat (n : Nat) : ℚ := n

/-- Encode an integer as one rational token. -/
def encInt (i : Int) : ℚ := i

/-- Encode a boolean as one rational token. -/
def encBool (b : Bool) : ℚ := if b then 1 else 0

/-- Decode a natural-number token, rejecting non-integral or negative
values. -/
def decNat (q : ℚ) : Option Nat :=
  if q.den = 1 ∧ 0 ≤ q.num then some q.num.toNat else none

/-- Decode an integer token, rejecting non-integral values. -/
def decInt (q : ℚ) : Option Int :=
  if q.den = 1 then some q.num else none

/-- Decode a boolean token. -/
def decBool (q : ℚ) : Option Bool :=
  if q = 1 then some true else if q = 0 then some false else none

/-- Encode the metric tag. -/
def encMetric : Metric → ℚ
  | .sqEuclid => 0
  | .cosine => 1
  | .ucosine => 2

/-- Decode the metric tag. -/
def decMetric (q : ℚ) : Option Metric :=
  if q = 0 then some .sqEuclid
  else if q = 1 then some .cosine
  else if q = 2 then some .ucosine
  else none

/-- Modelled from the spec: the header's parameter block, one token per
configuration field. -/
def encParams (p : Params) : List ℚ :=
  [encNat p.collectionSize, encNat p.maxEdges, encNat p.maxCandidates,
   p.distRate, encInt p.seed, encNat p.minNN, encNat p.zeroLayerBase,
   encBool p.allowRemovals]

/-- Encode the optional entry-point id as a presence tag plus payload. -/
def encEntry : Option Int → List ℚ
  | none => [0]
  | some i => [1, encInt i]

/-- Encode one neighbor list as its length followed by the ids. -/
def encNbrList (l : List Int) : List ℚ :=
  encNat l.length :: l.map encInt

/-- Encode the per-layer neighbor lists back to back. -/
def encLayers : List (List Int) → List ℚ
  | [] => []
  | l :: ls => encNbrList l ++ encLayers ls

/-- Modelled from the spec: one node record — id, level, tombstone flag,
the vector payload, and for each layer 0..level its neighbor id list. -/
def encNode (nd : Node) : List ℚ :=
  encInt nd.id :: encNat nd.level :: encBool nd.tombstone :: nd.vec
    ++ encLayers nd.nbrs

/-- Encode the node records in the arena's stable order. -/
def encNodes : List Node → List ℚ
  | [] => []
  | nd :: nds => encNode nd ++ encNodes nds

/-- Modelled from the spec: the serialized form of the full index state —
a header (dimension, metric tag, the full parameter set, node count,
max level, entry-point id) followed by one record per node in a stable
node order. The id counter and LevelGenerator invocation count ride in
the header so that determinism survives the round trip. -/
def serialize (s : HnswState) : List ℚ :=
  encNat s.dim :: encMetric s.metric :: encParams s.params
    ++ [encNat s.nodes.length, encNat s.maxLevel]
    ++ encEntry s.entry
    ++ [encInt s.nextId, encNat s.lgCalls]
    ++ encNodes s.nodes

/-- Read one raw token. -/
def readOne : List ℚ → Option (ℚ × List ℚ)
  | [] => none
  | t :: r => some (t, r)

/-- Read one natural-number token. -/
def readNat (ts : List ℚ) : Option (Nat × List ℚ) :=
  match ts with
  | [] => none
  | t :: r => (decNat t).map (fun n => (n, r))

/-- Read one integer token. -/
def readInt (ts : List ℚ) : Option (Int × List ℚ) :=
  match ts with
  | [] => none
  | t :: r => (decInt t).map (fun i => (i, r))

/-- Read one boolean token. -/
def readBool (ts : List ℚ) : Option (Bool × List ℚ) :=
  match ts with
  | [] => none
  | t :: r => (decBool t).map (fun b => (b, r))

/-- Read a run of n raw tokens (a vector payload). -/
def readQs : Nat → List ℚ → Option (List ℚ × List ℚ)
  | 0, ts => some ([], ts)
  | n + 1, ts =>
    match ts with
    | [] => none
    | t :: r =>
      match readQs n r with
      | none => none
      | some (xs, r') => some (t :: xs, r')

/-- Read a run of n integer tokens. -/
def readInts : Nat → List ℚ → Option (List Int × List ℚ)
  | 0, ts => some ([], ts)
  | n + 1, ts =>
    match readInt ts with
    | none => none
    | some (i, r) =>
      match readInts n r with
      | none => none
      | some (xs, r') => some (i :: xs, r')

/-- Read one length-led neighbor list. -/
def readNbrList (ts : List ℚ) : Option (List Int × List ℚ) :=
  match readNat ts with
  | none => none
  | some (n, r) => readInts n r

/-- Read n neighbor lists back to back. -/
def readLayers : Nat → List ℚ → Option (List (List Int) × List ℚ)
  | 0, ts => some ([], ts)
  | n + 1, ts =>
    match readNbrList ts with
    | none => none
    | some (l, r) =>
      match readLayers n r with
      | none => none
      | some (ls, r') => some (l :: ls, r')

/-- Read one node record for a given dimension. -/
def readNode (dim : Nat) (ts : List ℚ) : Option (Node × List ℚ) :=
  match readInt ts with
  | none => none
  | some (i, r1) =>
    match readNat r1 with
    | none => none
    | some (level, r2) =>
      match readBool r2 with
      | none => none
      | some (tomb, r3) =>
        match readQs dim r3 with
        | none => none
        | some (v, r4) =>
          match readLayers (level + 1) r4 with
          | none => none
          | some (ls, r5) => some (⟨i, level, tomb, v, ls⟩, r5)

/-- Read n node records. -/
def readNodes (dim : Nat) : Nat → List ℚ → Option (List Node × List ℚ)
  | 0, ts => some ([], ts)
  | n + 1, ts =>
    match readNode dim ts with
    | none => none
    | some (nd, r) =>
      match readNodes dim n r with
      | none => none
      | some (nds, r') => some (nd :: nds, r')

/-- Read the parameter block. -/
def readParams (ts : List ℚ) : Option (Params × List ℚ) :=
  match readNat ts with
  | none => none
  | some (cs, r1) =>
    match readNat r1 with
    | none => none
    | some (me, r2) =>
      match readNat r2 with
      | none => none
      | some (mc, r3) =>
        match readOne r3 with
        | none => none
        | some (dr, r4) =>
          match readInt r4 with
          | none => none
          | some (sd, r5) =>
            match readNat r5 with
            | none => none
            | some (mn, r6) =>
              match readNat r6 with
              | none => none
              | some (zb, r7) =>
                match readBool r7 with
                | none => none
                | some (ar, r8) => some (⟨cs, me, mc, dr, sd, mn, zb, ar⟩, r8)

/-- Read the optional entry-point id. -/
def readEntry (ts : List ℚ) : Option (Option Int × List ℚ) :=
  match ts with
  | [] => none
  | t :: r =>
    if t = 0 then some (none, r)
    else if t = 1 then
      match readInt r with
      | none => none
      | some (i, r') => some (some i, r')
    else none

/-- Modelled from the spec: structural consistency of a decoded state —
every vector payload matches the dimension and every referenced neighbor
id exists (the two checks the spec requires of deserialize). -/
def validState (s : HnswState) : Bool :=
  s.nodes.all (fun nd => nd.vec.length == s.dim) &&
  s.nodes.all (fun nd =>
    nd.nbrs.all (fun l => l.all (fun j => s.nodes.any (fun m => m.id == j))))

/-- Modelled from the spec: decode a byte buffer back into an index
state, validating structural consistency and failing with
SerializationCorrupt on any malformed or inconsistent input — a corrupt
buffer never yields a partially-valid index. -/
def deserialize (ts : List ℚ) : Except Err HnswState :=
  match readNat ts with
  | none => .error .serializationCorrupt
  | some (dim, r1) =>
    match readOne r1 with
    | none => .error .serializationCorrupt
    | some (mt, r2) =>
      match decMetric mt with
      | none => .error .serializationCorrupt
      | some m =>
        match readParams r2 with
        | none => .error .serializationCorrupt
        | some (p, r3) =>
          match readNat r3 with
          | none => .error .serializationCorrupt
          | some (cnt, r4) =>
            match readNat r4 with
            | none => .error .serializationCorrupt
            | some (ml, r5) =>
              match readEntry r5 with
              | none => .error .serializationCorrupt
              | some (ent, r6) =>
                match readInt r6 with
                | none => .error .serializationCorrupt
                | some (nid, r7) =>
                  match readNat r7 with
                  | none => .error .serializationCorrupt
                  | some (lg, r8) =>
                    match readNodes dim cnt r8 with
                    | none => .error .serializationCorrupt
                    | some (nds, rest) =>
                      if rest.isEmpty then
                        let s : HnswState := ⟨dim, m, p, nds, ent, ml, nid, lg⟩
                        if validState s then .ok s
                        else .error .serializationCorrupt
                      else .error .serializationCorrupt

/-- Structural well-formedness of a live index state, from the data
model's invariants: vector payloads match the dimension, each node has
one neighbor list per layer 0..level, and every referenced neighbor id
exists in the arena. -/
def wfState (s : HnswState) : Bool :=
  validState s && s.nodes.all (fun nd => nd.nbrs.length == nd.level + 1)

/-- The level function used for concrete evaluations: every draw is 0.
Any LevelFn works for the universally quantified theorems; this one
keeps sample indices flat. -/
def zeroLvl : LevelFn := fun _ _ => 0

/-- An empty squared-Euclidean index of dimension 2. -/
def st2 : HnswState := mkInitState 2 .sqEuclid

/-- An empty cosine index of dimension 2 (reachable per the spec through
a metric-carrying create or deserialize). -/
def cosSt : HnswState := mkInitState 2 .cosine

/-- An empty unit-cosine index of dimension 2. -/
def ucosSt : HnswState := mkInitState 2 .ucosine

/-- A small well-formed two-node index used to instantiate theorems. -/
def exSt : HnswState :=
  { dim := 2
    metric := .sqEuclid
    params := defaultParams
    nodes := [⟨0, 1, false, [1, 2], [[1], [1]]⟩, ⟨1, 0, true, [3, 4], [[0]]⟩]
    entry := some 0
    maxLevel := 1
    nextId := 2
    lgCalls := 2 }

/-- The state reached by inserting the zero vector into the empty
unit-cosine index (the insertion the spec's unit-cosine metric accepts). -/
def ucosZeroSt : HnswState :=
  { dim := 2
    metric := .ucosine
    params := defaultParams
    nodes := [⟨0, 0, false, [0, 0], [[]]⟩]
    entry := some 0
    maxLevel := 0
    nextId := 1
    lgCalls := 1 }

theorem decNat_encNat (n : Nat) : decNat (encNat n) = some n := by
  simp [decNat, encNat]

theorem decInt_encInt (i : Int) : decInt (encInt i) = some i := by
  simp [decInt, encInt]

theorem decBool_encBool (b : Bool) : decBool (encBool b) = some b := by
  cases b <;> simp [decBool, encBool]

theorem decMetric_encMetric (m : Metric) : decMetric (encMetric m) = some m := by
  cases m <;> norm_num [decMetric, encMetric]

theorem readNat_cons (n : Nat) (r : List ℚ) :
    readNat (encNat n :: r) = some (n, r) := by
  simp [readNat, decNat_encNat]

theorem readInt_cons (i : Int) (r : List ℚ) :
    readInt (encInt i :: r) = some (i, r) := by
  simp [readInt, decInt_encInt]

theorem readBool_cons (b : Bool) (r : List ℚ) :
    readBool (encBool b :: r) = some (b, r) := by
  simp [readBool, decBool_encBool]

theorem readQs_append (xs r : List ℚ) :
    readQs xs.length (xs ++ r) = some (xs, r) := by
  induction xs with
  | nil => simp [readQs]
  | cons x xs ih => simp [readQs, ih]

theorem readInts_append (l : List Int) (r : List ℚ) :
    readInts l.length (l.map encInt ++ r) = some (l, r) := by
  induction l with
  | nil => simp [readInts]
  | cons i l ih => simp [readInts, readInt_cons, ih]

theorem readNbrList_append (l : List Int) (r : List ℚ) :
    readNbrList (encNbrList l ++ r) = some (l, r) := by
  simp [readNbrList, encNbrList, readNat_cons, readInts_append]

theorem readLayers_append (ls : List (List Int)) (r : List ℚ) :
    readLayers ls.length (encLayers ls ++ r) = some (ls, r) := by
  induction ls with
  | nil => simp [readLayers, encLayers]
  | cons l ls ih =>
    simp [readLayers, encLayers, List.append_assoc, readNbrList_append, ih]

theorem readNode_append (dim : Nat) (nd : Node) (r : List ℚ)
    (hv : nd.vec.length = dim) (hl : nd.nbrs.length = nd.level + 1) :
    readNode dim (encNode nd ++ r) = some (nd, r) := by
  obtain ⟨i, level, tomb, v, ls⟩ := nd
  simp only at hv hl
  simp [readNode, encNode, List.append_assoc, readInt_cons, readNat_cons,
    readBool_cons, ← hv, readQs_append, ← hl, readLayers_append]

theorem readNodes_append (dim : Nat) (nds : List Node) (r : List ℚ)
    (h : ∀ nd ∈ nds, nd.vec.length = dim ∧ nd.nbrs.length = nd.level + 1) :
    readNodes dim nds.length (encNodes nds ++ r) = some (nds, r) := by
  induction nds with
  | nil => simp [readNodes, encNodes]
  | cons nd nds ih =>
    have h1 := h nd (List.mem_cons_self nd nds)
    simp [readNodes, encNodes, List.append_assoc,
      readNode_append dim nd _ h1.1 h1.2,
      ih (fun m hm => h m (List.mem_cons_of_mem nd hm))]

theorem readParams_append (p : Params) (r : List ℚ) :
    readParams (encParams p ++ r) = some (p, r) := by
  obtain ⟨cs, me, mc, dr, sd, mn, zb, ar⟩ := p
  simp [readParams, encParams, readNat_cons, readInt_cons, readBool_cons,
    readOne, decNat_encNat, decInt_encInt, decBool_encBool]

theorem readEntry_append (e : Option Int) (r : List ℚ) :
    readEntry (encEntry e ++ r) = some (e, r) := by
  cases e with
  | none => simp [readEntry, encEntry]
  | some i => norm_num [readEntry, encEntry, readInt_cons]

/-- Deserializing the serialization of a well-formed state recovers it
exactly. -/
theorem deserialize_serialize (s : HnswState) (h : wfState s = true) :
    deserialize (serialize s) = .ok s := by
  rw [wfState, Bool.and_eq_true] at h
  have hval : validState s = true := h.1
  have hlay : ∀ nd ∈ s.nodes, nd.nbrs.length = nd.level + 1 := by
    have h2 := h.2
    rw [List.all_eq_true] at h2
    intro nd hnd
    exact eq_of_beq (h2 nd hnd)
  have hvec : ∀ nd ∈ s.nodes, nd.vec.length = s.dim := by
    have h1 := hval
    rw [validState, Bool.and_eq_true, List.all_eq_true, List.all_eq_true] at h1
    intro nd hnd
    exact eq_of_beq (h1.1 nd hnd)
  obtain ⟨dim, m, p, nds, ent, ml, nid, lg⟩ := s
  simp only at hvec hlay
  have hnodes : readNodes dim nds.length (encNodes nds) = some (nds, []) := by
    have := readNodes_append dim nds [] (fun nd hnd => ⟨hvec nd hnd, hlay nd hnd⟩)
    simpa using this
  simp [deserialize, serialize, List.append_assoc, readNat_cons, readOne,
    decMetric_encMetric, readParams_append, readEntry_append, readInt_cons,
    hnodes, hval]

theorem updNode_fields (s : HnswState) (i : Int) (f : Node → Node) :
    (updNode s i f).dim = s.dim ∧ (updNode s i f).metric = s.metric :=
  ⟨rfl, rfl⟩

theorem linkOne_fields (d : DistFn) (nid : Int) (layer : Nat) (s : HnswState)
    (t : Int) :
    (linkOne d nid layer s t).dim = s.dim ∧
    (linkOne d nid layer s t).metric = s.metric :=
  ⟨rfl, rfl⟩

theorem foldl_linkOne_fields (d : DistFn) (nid : Int) (layer : Nat) :
    ∀ (sel : List Int) (s : HnswState),
      (sel.foldl (linkOne d nid layer) s).dim = s.dim ∧
      (sel.foldl (linkOne d nid layer) s).metric = s.metric := by
  intro sel
  induction sel with
  | nil => intro s; exact ⟨rfl, rfl⟩
  | cons t sel ih =>
    intro s
    have h := ih (linkOne d nid layer s t)
    exact ⟨h.1.trans (linkOne_fields d nid layer s t).1,
           h.2.trans (linkOne_fields d nid layer s t).2⟩

theorem linkAll_fields (d : DistFn) (nid : Int) (layer : Nat) (sel : List Int)
    (s : HnswState) :
    (linkAll d nid layer sel s).dim = s.dim ∧
    (linkAll d nid layer sel s).metric = s.metric :=
  foldl_linkOne_fields d nid layer sel (updNode s nid (setNbrs layer sel))

theorem insertLayers_fields (d : DistFn) (v : List ℚ) (nid : Int) :
    ∀ (ls : List Nat) (cur : Int) (s : HnswState),
      (insertLayers d v nid ls cur s).dim = s.dim ∧
      (insertLayers d v nid ls cur s).metric = s.metric := by
  intro ls
  induction ls with
  | nil => intro cur s; exact ⟨rfl, rfl⟩
  | cons layer rest ih =>
    intro cur s
    rw [insertLayers]
    refine ⟨(ih _ _).1.trans ?_, (ih _ _).2.trans ?_⟩
    · exact (linkAll_fields d nid layer _ s).1
    · exact (linkAll_fields d nid layer _ s).2

theorem insertOne_fields (lvl : LevelFn) (d : DistFn) (s : HnswState)
    (v : List ℚ) (s' : HnswState) (i : Int)
    (h : insertOne lvl d s v = .ok (s', i)) :
    s'.dim = s.dim ∧ s'.metric = s.metric := by
  cases hE : s.entry with
  | none =>
    simp only [insertOne, hE] at h
    split at h
    · exact absurd h (by simp)
    split at h
    · exact absurd h (by simp)
    rw [Except.ok.injEq, Prod.mk.injEq] at h
    rw [← h.1]
    exact ⟨rfl, rfl⟩
  | some ep =>
    simp only [insertOne, hE] at h
    split at h
    · exact absurd h (by simp)
    split at h
    · exact absurd h (by simp)
    rw [Except.ok.injEq, Prod.mk.injEq] at h
    rw [← h.1]
    split
    · exact ⟨(insertLayers_fields d v s.nextId _ _ _).1,
             (insertLayers_fields d v s.nextId _ _ _).2⟩
    · exact ⟨(insertLayers_fields d v s.nextId _ _ _).1,
             (insertLayers_fields d v s.nextId _ _ _).2⟩

theorem insertOne_ok (lvl : LevelFn) (d : DistFn) (s : HnswState) (v : List ℚ)
    (h1 : v.length = s.dim) (h2 : metricDefined s.metric v = true) :
    ∃ s' i, insertOne lvl d s v = .ok (s', i) := by
  unfold insertOne
  rw [if_neg (by simp [h1]), if_neg (by simp [h2])]
  cases s.entry
  · exact ⟨_, _, rfl⟩
  · exact ⟨_, _, rfl⟩

theorem as2dF32_ok (vss : List (List ℚ)) (dim : Nat)
    (h : ∀ v ∈ vss, v.length = dim) :
    as2dF32 (.list2 vss) (some dim) = .ok vss := by
  have hrect : rectangular vss = true := by
    cases vss with
    | nil => rfl
    | cons v vs =>
      rw [rectangular, List.all_eq_true]
      intro r hr
      simp only [List.headD_cons]
      have hv := h v (List.mem_cons_self v vs)
      have hrr := h r hr
      simp [hv, hrr]
  have hall : vss.all (fun r => r.length == dim) = true := by
    rw [List.all_eq_true]
    intro r hr
    simp [h r hr]
  simp [as2dF32, asF32, hrect, hall]

theorem addBatch_eq_seq (lvl : LevelFn) (d : DistFn) :
    ∀ (vs : List (List ℚ)) (s : HnswState),
      (∀ v ∈ vs, v.length = s.dim) →
      (∀ v ∈ vs, metricDefined s.metric v = true) →
      ∃ s' ids, addBatch lvl d s vs = .ok (s', ids) ∧
        pySeqRun lvl d s vs = (s', ids, none) ∧ ids.length = vs.length := by
  intro vs
  induction vs with
  | nil => intro s _ _; exact ⟨s, [], rfl, rfl, rfl⟩
  | cons v vs ih =>
    intro s hdim hdef
    obtain ⟨s1, i, h1⟩ := insertOne_ok lvl d s v
      (hdim v (List.mem_cons_self v vs)) (hdef v (List.mem_cons_self v vs))
    have hfields := insertOne_fields lvl d s v s1 i h1
    obtain ⟨s2, ids, hAB, hSeq, hLen⟩ := ih s1
      (fun w hw => (hdim w (List.mem_cons_of_mem v hw)).trans hfields.1.symm)
      (fun w hw => hfields.2 ▸ hdef w (List.mem_cons_of_mem v hw))
    refine ⟨s2, i :: ids, ?_, ?_, by simp [hLen]⟩
    · simp [addBatch, h1, hAB]
    · have hone : pyAdd lvl d s (.list2 [v]) = .ok (s1, [i]) := by
        simp [pyAdd, as2dF32_ok [v] s.dim
          (by intro w hw; rw [List.mem_singleton] at hw; rw [hw];
              exact hdim v (List.mem_cons_self v vs)), addBatch, h1]
      simp [pySeqRun, hone, hSeq]

/-- C1: for every well-formed index state, deserializing the buffer
produced by serializing it succeeds and yields an index that answers
every knn query identically to the original — the same ids in the same
order with the same (here exact) distances. -/
theorem serialize_roundtrip_queries (s : HnswState) (h : wfState s = true) :
    ∃ s', deserialize (serialize s) = .ok s' ∧
      ∀ (d : DistFn) (q : List ℚ) (k : Nat), knnQuery d s' q k = knnQuery d s q k :=
  ⟨s, deserialize_serialize s h, fun _ _ _ => rfl⟩

/-- Witness for C1 at a concrete two-node index. -/
theorem serialize_roundtrip_queries_witness :
    wfState exSt = true ∧
    ∃ s', deserialize (serialize exSt) = .ok s' ∧
      ∀ (d : DistFn) (q : List ℚ) (k : Nat), knnQuery d s' q k = knnQuery d exSt q k :=
  ⟨by decide, serialize_roundtrip_queries exSt (by decide)⟩

/-- C2 counterexample: for the sequence [[1, 2], [3]] on an empty
dimension-2 index, one batch add call and two sequential single-vector
add calls do not produce equivalent results: the batch call's upfront
validation raises before anything is inserted (no ids, unchanged graph),
while the sequential path commits the first vector and returns its id
before the second call raises — so neither the assigned ids nor the
graphs (here of different node counts) coincide. -/
theorem batch_vs_seq_counterexample :
    (pySeqRun zeroLvl sqEuclidDist st2 [[1, 2], [3]]).2.1 = [0] ∧
    (pyBatchRun zeroLvl sqEuclidDist st2 [[1, 2], [3]]).2.1 = [] ∧
    (pySeqRun zeroLvl sqEuclidDist st2 [[1, 2], [3]]).1.nodes.length = 1 ∧
    (pyBatchRun zeroLvl sqEuclidDist st2 [[1, 2], [3]]).1.nodes.length = 0 ∧
    (pySeqRun zeroLvl sqEuclidDist st2 [[1, 2], [3]]).1 ≠
      (pyBatchRun zeroLvl sqEuclidDist st2 [[1, 2], [3]]).1 :=
  ⟨rfl, rfl, rfl, rfl, by decide⟩

/-- C2 (amended): for every fixed seed (level function) and every
sequence of vectors of the index's dimension on which the index's metric
is defined, one batch add call and N sequential single-vector add calls
in the same order produce identical results — the same assigned ids, the
same final state (including the LevelGenerator's invocation count), no
exception, and identical answers to every subsequent query. -/
theorem batch_add_equiv_seq (lvl : LevelFn) (d : DistFn) (s : HnswState)
    (vs : List (List ℚ))
    (hdim : ∀ v ∈ vs, v.length = s.dim)
    (hdef : ∀ v ∈ vs, metricDefined s.metric v = true) :
    pyBatchRun lvl d s vs = pySeqRun lvl d s vs ∧
    ∀ (q : List ℚ) (k : Nat),
      knnQuery d (pyBatchRun lvl d s vs).1 q k =
        knnQuery d (pySeqRun lvl d s vs).1 q k := by
  obtain ⟨s', ids, hAB, hSeq, _⟩ := addBatch_eq_seq lvl d vs s hdim hdef
  have hmain : pyBatchRun lvl d s vs = pySeqRun lvl d s vs := by
    simp [pyBatchRun, pyAdd, as2dF32_ok vs s.dim hdim, hAB, hSeq]
  exact ⟨hmain, fun q k => by rw [hmain]⟩

/-- Witness for C2 at a concrete two-vector sequence. -/
theorem batch_add_equiv_seq_witness :
    pyBatchRun zeroLvl sqEuclidDist st2 [[1, 2], [3, 4]] =
      pySeqRun zeroLvl sqEuclidDist st2 [[1, 2], [3, 4]] ∧
    ∀ (q : List ℚ) (k : Nat),
      knnQuery sqEuclidDist (pyBatchRun zeroLvl sqEuclidDist st2 [[1, 2], [3, 4]]).1 q k =
        knnQuery sqEuclidDist (pySeqRun zeroLvl sqEuclidDist st2 [[1, 2], [3, 4]]).1 q k :=
  batch_add_equiv_seq zeroLvl sqEuclidDist st2 [[1, 2], [3, 4]]
    (by decide) (by decide)

/-- C3: no configuration option can actually be set through the binding's
Index class — every configure call fails unconditionally: the seven
setters defined in src/bindings/bindings.py lines 130-149 consist solely
of raise NotImplementedError(), and set_allow_removals (which the
repository's own test test_disabled_removals calls) is not defined on
the class at all, so invoking it raises AttributeError. -/
theorem configure_always_fails (s : HnswState) (op : ConfigOp) (v : ℚ) :
    ∃ e, configure s op v = .error e := by
  cases op <;> exact ⟨_, rfl⟩

/-- C4: whenever knn_query returns a result list, it holds at most k
(id, distance) pairs, sorted by ascending distance with equal-distance
ties broken by ascending id. -/
theorem knn_sorted_bounded (d : DistFn) (s : HnswState) (q : List ℚ) (k : Nat)
    (r : List (Int × ℚ)) (h : knnQuery d s q k = .ok r) :
    r.length ≤ k ∧ List.Sorted rankLE r := by
  unfold knnQuery at h
  split at h
  · exact absurd h (by simp)
  split at h
  · exact absurd h (by simp)
  split at h
  · rw [Except.ok.injEq] at h
    rw [← h]
    exact ⟨Nat.zero_le k, List.sorted_nil⟩
  · rw [Except.ok.injEq] at h
    rw [← h]
    constructor
    · rw [List.length_take]
      exact min_le_left _ _
    · exact List.Pairwise.sublist (List.take_sublist _ _)
        (List.sorted_insertionSort rankLE _)

/-- Witness for C4: a concrete query on the two-node index (under a
concrete distance function) returns one pair — the tombstoned node is
filtered — within the bound and sorted. -/
theorem knn_sorted_bounded_witness :
    ([(0, 0)] : List (Int × ℚ)).length ≤ 2 ∧
    List.Sorted rankLE ([(0, 0)] : List (Int × ℚ)) :=
  knn_sorted_bounded (fun _ _ => 0) exSt [1, 2] 2 [(0, 0)] (by rfl)

/-- C5 counterexample: under the unit-cosine metric a zero vector is not
rejected: inserting it into an empty index succeeds, querying an empty
unit-cosine index with the zero vector succeeds (empty result), and
querying the populated index with the zero vector succeeds and returns
the stored node — never the UndefinedDistance failure the claim
requires. -/
theorem ucosine_zero_accepted :
    insertOne zeroLvl ucosineDist ucosSt [0, 0] = .ok (ucosZeroSt, 0) ∧
    knnQuery ucosineDist ucosSt [0, 0] 1 = .ok [] ∧
    knnQuery (fun _ _ => 0) ucosZeroSt [0, 0] 1 = .ok [(0, 0)] :=
  ⟨rfl, rfl, rfl⟩

/-- C5 (amended): under the cosine metric, inserting or querying a
zero-norm vector of the index's dimension fails with the
UndefinedDistance error. (The unit-cosine metric performs no norm check,
as the counterexample shows.) -/
theorem cosine_zero_rejected (lvl : LevelFn) (d : DistFn) (s : HnswState)
    (v : List ℚ) (k : Nat) (hm : s.metric = .cosine) (hv : normSq v = 0)
    (hd : v.length = s.dim) :
    insertOne lvl d s v = .error .undefinedDistance ∧
    knnQuery d s v k = .error .undefinedDistance := by
  have hnd : metricDefined s.metric v = false := by
    simp [metricDefined, hm, hv]
  constructor
  · unfold insertOne
    rw [if_neg (by simp [hd]), if_pos hnd]
  · unfold knnQuery
    rw [if_neg (by simp [hd]), if_pos hnd]

/-- Witness for C5 at the concrete zero vector on a cosine index. -/
theorem cosine_zero_rejected_witness :
    insertOne zeroLvl sqEuclidDist cosSt [0, 0] = .error .undefinedDistance ∧
    knnQuery sqEuclidDist cosSt [0, 0] 1 = .error .undefinedDistance :=
  cosine_zero_rejected zeroLvl sqEuclidDist cosSt [0, 0] 1 rfl
    (by norm_num [normSq, dot]) (by rfl)

/-- C6 counterexample: a batch consisting of one vector of the correct
dimension — the zero vector on a cosine index — does not get n assigned
ids: add fails with UndefinedDistance. -/
theorem add_correct_dim_can_fail :
    pyAdd zeroLvl sqEuclidDist cosSt (.list2 [[0, 0]]) =
      .error .undefinedDistance := by
  have hz : normSq ([0, 0] : List ℚ) = 0 := by norm_num [normSq, dot]
  have hmd : metricDefined .cosine [0, 0] = false := by
    simp [metricDefined, hz]
  simp [pyAdd, as2dF32, asF32, rectangular, addBatch, insertOne, hmd,
    cosSt, mkInitState]

/-- C6 (amended): a batch containing a vector whose length differs from
the index's dimension fails with ValueError in the binding layer, with
no ids assigned; a batch of n vectors of the correct dimension on which
the index's metric is defined returns exactly n assigned ids. -/
theorem add_dim_check (lvl : LevelFn) (d : DistFn) (s : HnswState)
    (vss : List (List ℚ)) :
    (¬ (∀ v ∈ vss, v.length = s.dim) →
      pyAdd lvl d s (.list2 vss) = .error .valueError) ∧
    ((∀ v ∈ vss, v.length = s.dim) →
     (∀ v ∈ vss, metricDefined s.metric v = true) →
      ∃ s' ids, pyAdd lvl d s (.list2 vss) = .ok (s', ids) ∧
        ids.length = vss.length) := by
  constructor
  · intro hbad
    by_cases hrect : rectangular vss = true
    · have hall : vss.all (fun r => r.length == s.dim) = false := by
        by_contra hc
        apply hbad
        intro v hv
        have hall2 : vss.all (fun r => r.length == s.dim) = true :=
          eq_true_of_ne_false hc
        rw [List.all_eq_true] at hall2
        exact eq_of_beq (hall2 v hv)
      simp [pyAdd, as2dF32, asF32, hrect, hall]
    · have hrf : rectangular vss = false := eq_false_of_ne_true hrect
      simp [pyAdd, as2dF32, asF32, hrf]
  · intro h1 h2
    obtain ⟨s', ids, hAB, _, hLen⟩ := addBatch_eq_seq lvl d vss s h1 h2
    exact ⟨s', ids, by simp [pyAdd, as2dF32_ok vss s.dim h1, hAB], hLen⟩

/-- Witness for C6: a correct two-vector batch gets two ids; a
wrong-dimension batch raises ValueError. -/
theorem add_dim_check_witness :
    (∃ s' ids, pyAdd zeroLvl sqEuclidDist st2 (.list2 [[1, 2], [3, 4]]) =
        .ok (s', ids) ∧ ids.length = 2) ∧
    pyAdd zeroLvl sqEuclidDist st2 (.list2 [[1, 2, 3]]) = .error .valueError :=
  ⟨(add_dim_check zeroLvl sqEuclidDist st2 [[1, 2], [3, 4]]).2
      (by decide) (by decide),
   (add_dim_check zeroLvl sqEuclidDist st2 [[1, 2, 3]]).1 (by decide)⟩

/-- C7: the binding's create cannot take a metric tag — Index.__init__
accepts only the dimension (and the declared hnsw_create ABI carries a
single int), so the repository's own metric-test call
Index(128, metric="sq_euclid") raises TypeError, and no metric tag can
ever be passed, accepted or rejected. The dimension half of the claim
does hold of the spec-modelled engine: nonpositive dimensions fail. -/
theorem create_no_metric_param :
    indexInitKw 128 (some "sq_euclid") = .error .typeError ∧
    indexInit 0 = .error .runtimeError ∧
    indexInit (-3) = .error .runtimeError :=
  ⟨rfl, rfl, rfl⟩

theorem map_self_of_fixed {α : Type} (f : α → α) :
    ∀ l : List α, (∀ x ∈ l, f x = x) → l.map f = l := by
  intro l
  induction l with
  | nil => intro _; rfl
  | cons a l ih =>
    intro h
    rw [List.map_cons, h a (List.mem_cons_self a l),
      ih (fun x hx => h x (List.mem_cons_of_mem a hx))]

theorem foldl_fixed {α β : Type} (f : α → β → α) (s : α) :
    ∀ l : List β, (∀ x ∈ l, f s x = s) → l.foldl f s = s := by
  intro l
  induction l with
  | nil => intro _; rfl
  | cons a l ih =>
    intro h
    rw [List.foldl_cons, h a (List.mem_cons_self a l)]
    exact ih (fun x hx => h x (List.mem_cons_of_mem a hx))

/-- C8: with removals enabled, removing ids that are unknown or already
tombstoned is a silent no-op — the engine reports no error, the state is
unchanged, and the binding call returns normally. -/
theorem remove_unknown_tombstoned_noop (s : HnswState) (ids : List Int)
    (hA : s.params.allowRemovals = true)
    (h : ∀ i ∈ ids, ∀ nd ∈ s.nodes, nd.id = i → nd.tombstone = true) :
    engineRemove s ids = (s, none) ∧ pyRemove engineRemove s ids = .ok s := by
  have hone : ∀ i ∈ ids, removeOne s i = s := by
    intro i hi
    unfold removeOne
    have hmap : s.nodes.map
        (fun nd => if nd.id == i then { nd with tombstone := true } else nd) =
        s.nodes := by
      apply map_self_of_fixed
      intro nd hnd
      by_cases hid : nd.id = i
      · have ht := h i hi nd hnd hid
        obtain ⟨a, b, c, dd, e⟩ := nd
        simp only at ht
        simp [hid, ht]
      · simp [hid]
    rw [hmap]
  have hfold : ids.foldl removeOne s = s := foldl_fixed removeOne s ids hone
  have heng : engineRemove s ids = (s, none) := by
    rw [engineRemove, if_neg (by simp [hA]), hfold]
  refine ⟨heng, ?_⟩
  unfold pyRemove
  split
  · rfl
  · rw [heng]

/-- Witness for C8: removing the tombstoned id 1 and the unknown id 99
from the two-node index changes nothing and raises nothing. -/
theorem remove_unknown_tombstoned_noop_witness :
    engineRemove exSt [1, 99] = (exSt, none) ∧
    pyRemove engineRemove exSt [1, 99] = .ok exSt :=
  remove_unknown_tombstoned_noop exSt [1, 99] (by decide) (by decide)

/-- C9: calling remove with an empty id list returns immediately with
the state unchanged and no exception, for every possible engine removal
routine — so the engine is never invoked. -/
theorem remove_empty_noop
    (engine : HnswState → List Int → HnswState × Option Err)
    (s : HnswState) : pyRemove engine s [] = .ok s := rfl

/-- C10: every knn input that is not a one-dimensional vector of exactly
the index's dimension raises ValueError, for every possible engine query
routine — the engine is never invoked, so no state changes and no
partial result buffer is exposed. -/
theorem knn_bad_input_valueError
    (engine : List ℚ → Nat → Except Err (List (Int × ℚ)))
    (dim : Nat) (x : PyData) (k : Nat)
    (h : ∀ xs, x = PyData.list1 xs → xs.length ≠ dim) :
    pyKnn engine dim x k = .error .valueError := by
  cases x with
  | scalar v => rfl
  | list1 xs =>
    have hne := h xs rfl
    simp [pyKnn, asF32, hne]
  | list2 xss =>
    by_cases hrect : rectangular xss = true
    · simp [pyKnn, asF32, hrect]
    · have hrf : rectangular xss = false := eq_false_of_ne_true hrect
      simp [pyKnn, asF32, hrf]

/-- Witness for C10: a three-component query against a dimension-2 index
raises ValueError for a concrete engine. -/
theorem knn_bad_input_valueError_witness :
    pyKnn (fun _ _ => .ok []) 2 (.list1 [1, 2, 3]) 5 = .error .valueError :=
  knn_bad_input_valueError (fun _ _ => .ok []) 2 (.list1 [1, 2, 3]) 5
    (by intro xs hxs; cases hxs; decide)

end HNSW
